import Mathlib

/-!
Verification of the manifest resolution and archive-assembly logic of
`scripts/build_bundle.py` (LogLine bundle packager).

The Python source is shallowly embedded:
* strings are Lean `String`s; the character-level operations used by the
  parser (`strip`, slicing, `split("#", 1)[0]`, ...) are modelled on the
  underlying `List Char`;
* the file system is explicit: manifests are an association list from
  manifest name to file lines, and existence of module / auxiliary /
  binary files is an explicit boolean predicate;
* exceptions (`FileNotFoundError`) become `Except String` results carrying
  the formatted message; file paths are modelled relative to the repo root
  (the Python code formats absolute paths; only the tail differs);
* the archive side effects of `build_zip` are modelled as an ordered trace
  of events (directory creation, opening the archive, writing one entry).
-/

namespace BuildBundle

/-- Python `str.strip()` on the character list of a line: whitespace
removed from both ends (ASCII whitespace, as in the manifest files). -/
def pyStripList (cs : List Char) : List Char :=
  ((cs.dropWhile Char.isWhitespace).reverse.dropWhile Char.isWhitespace).reverse

/-- Python `str.strip()` as a `String` operation. -/
def pyStrip (s : String) : String := ⟨pyStripList s.data⟩

/-- The two recognized section keys of a manifest (`modules:` /
`requires:`).  The Python `state` variable only ever holds one of these
two strings or `None`. -/
inductive SectionKey
  | modules
  | requires
deriving DecidableEq, Repr

/-- The loop state of `parse_manifest`: the two accumulated entry lists
and the currently open section. -/
structure ParseState where
  modules : List String
  requires : List String
  state : Option SectionKey
deriving DecidableEq, Repr

/-- Python `line.startswith("- ")` on the stripped character list. -/
def leadDashSpace (l : List Char) : Bool :=
  match l with
  | '-' :: ' ' :: _ => true
  | _ => false

/-- One iteration of the `for raw_line in ...` loop of `parse_manifest`.
Mirrors the branch structure of the source: skip blank/comment lines,
section headers (a stripped line ending in `:` and not starting with `-`),
then entry lines (`- ...`) while a recognized section is open. -/
def processLine (st : ParseState) (raw : String) : ParseState :=
  let l := pyStripList raw.data
  if l = [] then st
  else if l.head? = some '#' then st
  else if l.getLast? = some ':' ∧ ¬ l.head? = some '-' then
    let key := pyStripList l.dropLast
    if key = "modules".data then { st with state := some SectionKey.modules }
    else if key = "requires".data then { st with state := some SectionKey.requires }
    else { st with state := none }
  else if st.state.isSome ∧ leadDashSpace l then
    let value := pyStripList ((l.drop 2).takeWhile (fun c => c != '#'))
    if value = [] then st
    else
      match st.state with
      | some SectionKey.modules => { st with modules := st.modules ++ [⟨value⟩] }
      | some SectionKey.requires => { st with requires := st.requires ++ [⟨value⟩] }
      | none => st
  else st

/-- The body of `parse_manifest` applied to the lines of a manifest file:
fold the line processor over the lines, return `(modules, requires)`. -/
def parseLines (lines : List String) : List String × List String :=
  let st := lines.foldl processLine { modules := [], requires := [], state := none }
  (st.modules, st.requires)

/-- The manifests directory: an association list from manifest name to the
lines of `manifests/<name>.lll`, standing for the files on disk. -/
def lookupManifest : List (String × List String) → String → Option (List String)
  | [], _ => none
  | (k, v) :: rest, name => if k = name then some v else lookupManifest rest name

/-- The function `parse_manifest`: locate the manifest file, raising
a `FileNotFoundError` whose message is the formatted manifest-not-found
path when absent, and parse its lines. -/
def parseManifest (fs : List (String × List String)) (name : String) :
    Except String (List String × List String) :=
  match lookupManifest fs name with
  | none => Except.error ("Manifest not found: manifests/" ++ name ++ ".lll")
  | some lines => Except.ok (parseLines lines)

/-- Set-style insertion used to model `modules.update(manifest_modules)`:
append each element not already present, keeping first-discovery order
(Python accumulates the module names in a `set`). -/
def addAll (acc : List String) (l : List String) : List String :=
  l.foldl (fun a m => if m ∈ a then a else a ++ [m]) acc

/-- The two accumulators of `collect_dependencies`: `visited_manifests`
and `modules`.  Both Python sets are modelled as duplicate-free lists in
insertion order. -/
structure DfsState where
  visited : List String
  modules : List String
deriving DecidableEq, Repr

/-- Number of manifest names on disk not yet visited; the measure that
makes the visited-set guard a termination argument. -/
def keysOutside (fs : List (String × List String)) (visited : List String) : Nat :=
  ((fs.map Prod.fst).toFinset \ visited.toFinset).card

theorem lookupManifest_mem (fs : List (String × List String)) (name : String)
    (v : List String) (h : lookupManifest fs name = some v) :
    name ∈ fs.map Prod.fst := by
  induction fs with
  | nil => simp [lookupManifest] at h
  | cons p rest ih =>
    obtain ⟨k, lines⟩ := p
    by_cases hk : k = name
    · subst hk
      simp
    · simp only [lookupManifest, if_neg hk] at h
      simpa using Or.inr (ih h)

theorem parseManifest_mem (fs : List (String × List String)) (name : String)
    (pr : List String × List String) (h : parseManifest fs name = Except.ok pr) :
    name ∈ fs.map Prod.fst := by
  unfold parseManifest at h
  cases hl : lookupManifest fs name with
  | none => rw [hl] at h; cases h
  | some lines => exact lookupManifest_mem fs name lines hl

theorem keysOutside_lt (fs : List (String × List String)) (visited : List String)
    (name : String) (hmem : name ∈ fs.map Prod.fst) (hnv : name ∉ visited) :
    keysOutside fs (visited ++ [name]) < keysOutside fs visited := by
  apply Finset.card_lt_card
  have hsub : (fs.map Prod.fst).toFinset \ (visited ++ [name]).toFinset ⊆
      (fs.map Prod.fst).toFinset \ visited.toFinset := by
    apply Finset.sdiff_subset_sdiff (le_refl _)
    intro x hx
    simp only [List.toFinset_append, Finset.mem_union]
    exact Or.inl hx
  refine (Finset.ssubset_iff_of_subset hsub).mpr ⟨name, ?_, ?_⟩
  · simp [hmem, hnv]
  · simp

/-- The recursive `dfs` of `collect_dependencies`, realized as the same
depth-first traversal with an explicit stack (required manifests are
pushed in listed order in front of the remaining work, so manifests are
visited and parsed in exactly the order of the Python recursion).  A name
already visited is skipped; parsing a missing manifest propagates the
`FileNotFoundError`. -/
def dfsRun (fs : List (String × List String)) :
    List String → DfsState → Except String DfsState
  | [], st => Except.ok st
  | name :: rest, st =>
    if name ∈ st.visited then
      dfsRun fs rest st
    else
      match hp : parseManifest fs name with
      | Except.error e => Except.error e
      | Except.ok pr =>
        dfsRun fs (pr.2 ++ rest)
          { visited := st.visited ++ [name], modules := addAll st.modules pr.1 }
termination_by stack st => (keysOutside fs st.visited, stack.length)
decreasing_by
  · apply Prod.Lex.right
    simp
  · apply Prod.Lex.left
    exact keysOutside_lt fs st.visited name
      (parseManifest_mem fs name pr hp) (by assumption)

/-- The function `collect_dependencies`: run the traversal from the root and return
`(visited_manifests, modules)`. -/
def collectDependencies (fs : List (String × List String)) (root : String) :
    Except String (List String × List String) :=
  match dfsRun fs [root] { visited := [], modules := [] } with
  | Except.error e => Except.error e
  | Except.ok st => Except.ok (st.visited, st.modules)

/-- Appending one parsed entry to the list of the open section (the two
`append` branches of the entry case of `parse_manifest`). -/
def appendEntry (st : ParseState) (sec : SectionKey) (v : String) : ParseState :=
  match sec with
  | SectionKey.modules => { st with modules := st.modules ++ [v] }
  | SectionKey.requires => { st with requires := st.requires ++ [v] }

/-- The fixed auxiliary relative paths `EXTRA_PATHS` (as posix strings;
Python keeps them in a set and sorts before writing). -/
def extraPathsList : List String :=
  ["scripts/instant_run.sh", "docs/architecture.mmd", "README.md",
   "profiles/staging.env", "profiles/prod.env", "installer/install.sh"]

/-- One observable side effect of `build_zip`, in program order:
creating the output's parent directory, opening the zip archive for
writing, or `zf.write(src, arcname)` for one entry. -/
inductive ZipEvent
  | mkdirOutput
  | openArchive
  | writeEntry (src : String) (arcname : String)
deriving DecidableEq, Repr

/-- The file system visible to `build_zip`: the manifests directory plus
existence predicates for module files (`modules/<name>.lll`), the
auxiliary paths, and candidate binary paths. -/
structure BuildEnv where
  manifests : List (String × List String)
  moduleExists : String → Bool
  extraExists : String → Bool
  binaryExists : String → Bool

/-- Python `sorted` on a list of strings (lexicographic). -/
def sortStrings (l : List String) : List String :=
  List.insertionSort (fun a b => a ≤ b) l

/-- The first writing loop of `build_zip`: one entry per resolved
manifest, in sorted order, under `<bundle-root>/manifests/`. -/
def manifestWrites (bundleRoot : String) (names : List String) : List ZipEvent :=
  (sortStrings names).map fun m =>
    ZipEvent.writeEntry ("manifests/" ++ m ++ ".lll") (bundleRoot ++ "/manifests/" ++ m ++ ".lll")

/-- The second writing loop of `build_zip`, applied to the sorted module
names: write each existing module under `<bundle-root>/modules/`, stop
with the `FileNotFoundError` message at the first missing one.  Returns
the performed writes and the raised error, if any. -/
def writeModules (env : BuildEnv) (bundleRoot : String) :
    List String → List ZipEvent × Option String
  | [] => ([], none)
  | m :: rest =>
    if env.moduleExists m then
      let r := writeModules env bundleRoot rest
      (ZipEvent.writeEntry ("modules/" ++ m ++ ".lll")
          (bundleRoot ++ "/modules/" ++ m ++ ".lll") :: r.1, r.2)
    else ([], some ("Module not found: modules/" ++ m ++ ".lll"))

/-- The auxiliary-file loop of `build_zip`: each `EXTRA_PATHS` entry, in
sorted order, written under the bundle root when it exists on disk and
silently skipped otherwise. -/
def extraWrites (env : BuildEnv) (bundleRoot : String) : List ZipEvent :=
  ((sortStrings extraPathsList).filter env.extraExists).map fun p =>
    ZipEvent.writeEntry p (bundleRoot ++ "/" ++ p)

/-- Python `Path(p).name`: the last `/`-separated component. -/
def fileBaseName (p : String) : String :=
  match (p.splitOn "/").getLast? with
  | some s => s
  | none => p

/-- The function `build_zip`: resolve the dependency closure (propagating its
`FileNotFoundError`, before any file-system effect), then create the
output directory, open the archive, and write manifests, modules,
optional auxiliary files and the optional binary, in that order.  The
result is the event trace paired with the returned output path or the
raised error message. -/
def buildZip (env : BuildEnv) (manifestName : String) (output : String)
    (includeExtra : Bool) (binaryPath : Option String) (binaryName : Option String) :
    List ZipEvent × Except String String :=
  match collectDependencies env.manifests manifestName with
  | Except.error e => ([], Except.error e)
  | Except.ok pr =>
    match (writeModules env manifestName (sortStrings pr.2)).2 with
    | some e =>
      ([ZipEvent.mkdirOutput, ZipEvent.openArchive] ++ manifestWrites manifestName pr.1 ++
          (writeModules env manifestName (sortStrings pr.2)).1,
        Except.error e)
    | none =>
      match binaryPath with
      | none =>
        ([ZipEvent.mkdirOutput, ZipEvent.openArchive] ++ manifestWrites manifestName pr.1 ++
            (writeModules env manifestName (sortStrings pr.2)).1 ++
            (if includeExtra then extraWrites env manifestName else []),
          Except.ok output)
      | some bp =>
        if env.binaryExists bp then
          ([ZipEvent.mkdirOutput, ZipEvent.openArchive] ++ manifestWrites manifestName pr.1 ++
              (writeModules env manifestName (sortStrings pr.2)).1 ++
              (if includeExtra then extraWrites env manifestName else []) ++
              [ZipEvent.writeEntry bp
                (manifestName ++ "/bin/" ++ (binaryName.getD (fileBaseName bp)))],
            Except.ok output)
        else
          ([ZipEvent.mkdirOutput, ZipEvent.openArchive] ++ manifestWrites manifestName pr.1 ++
              (writeModules env manifestName (sortStrings pr.2)).1 ++
              (if includeExtra then extraWrites env manifestName else []),
            Except.error ("Binary not found: " ++ bp))

/-- The spec's worked example: manifest `root` with modules `[m1, m2]`
requiring `child`, and `child` with modules `[m2, m3]`. -/
def demoFs : List (String × List String) :=
  [("root", ["modules:", "  - m1", "  - m2", "requires:", "  - child"]),
   ("child", ["modules:", "  - m2", "  - m3"])]

/-- A two-manifest `requires` cycle: `a` requires `b`, `b` requires `a`. -/
def cycleFs : List (String × List String) :=
  [("a", ["requires:", "- b"]), ("b", ["requires:", "- a"])]

/-- The diamond: `A` requires `B` and `C`, both of which require `D`. -/
def diamondFs : List (String × List String) :=
  [("A", ["requires:", "- B", "- C"]),
   ("B", ["requires:", "- D"]),
   ("C", ["requires:", "- D"]),
   ("D", ["modules:", "- dm"])]

/-- Demo environment in which every module, auxiliary and binary file
exists on disk. -/
def envW : BuildEnv :=
  { manifests := demoFs, moduleExists := fun _ => true,
    extraExists := fun _ => true, binaryExists := fun _ => true }

/-- Demo environment in which no module file exists on disk. -/
def envM : BuildEnv :=
  { manifests := demoFs, moduleExists := fun _ => false,
    extraExists := fun _ => false, binaryExists := fun _ => false }

theorem dfsRun_nil (fs : List (String × List String)) (st : DfsState) :
    dfsRun fs [] st = Except.ok st := by
  rw [dfsRun.eq_def]

theorem dfsRun_visited (fs : List (String × List String)) (name : String)
    (rest : List String) (st : DfsState) (h : name ∈ st.visited) :
    dfsRun fs (name :: rest) st = dfsRun fs rest st := by
  rw [dfsRun.eq_def]
  simp [h]

theorem dfsRun_err (fs : List (String × List String)) (name : String)
    (rest : List String) (st : DfsState) (e : String) (h : name ∉ st.visited)
    (hp : parseManifest fs name = Except.error e) :
    dfsRun fs (name :: rest) st = Except.error e := by
  rw [dfsRun.eq_def]
  simp only [if_neg h]
  split
  next e' heq => rw [hp] at heq; cases heq; rfl
  next pr heq => rw [hp] at heq; cases heq

theorem dfsRun_fresh (fs : List (String × List String)) (name : String)
    (rest : List String) (st : DfsState) (pr : List String × List String)
    (h : name ∉ st.visited) (hp : parseManifest fs name = Except.ok pr) :
    dfsRun fs (name :: rest) st =
      dfsRun fs (pr.2 ++ rest)
        { visited := st.visited ++ [name], modules := addAll st.modules pr.1 } := by
  rw [dfsRun.eq_def]
  simp only [if_neg h]
  split
  next e' heq => rw [hp] at heq; cases heq
  next pr' heq => rw [hp] at heq; cases heq; rfl

/-- Invariant behind the visited-set guard: the returned visited list
never holds a duplicate name. -/
theorem dfsRun_ok_nodup (fs : List (String × List String)) (stack : List String)
    (st : DfsState) :
    ∀ st', dfsRun fs stack st = Except.ok st' → st.visited.Nodup → st'.visited.Nodup := by
  induction stack, st using dfsRun.induct fs with
  | case1 st =>
    intro st' h hn
    rw [dfsRun_nil] at h
    cases h
    exact hn
  | case2 name rest st hmem ih =>
    intro st' h hn
    rw [dfsRun_visited fs name rest st hmem] at h
    exact ih st' h hn
  | case3 name rest st hnm e' hp =>
    intro st' h hn
    rw [dfsRun_err fs name rest st e' hnm hp] at h
    cases h
  | case4 name rest st hnm pr hp ih =>
    intro st' h hn
    rw [dfsRun_fresh fs name rest st pr hnm hp] at h
    refine ih st' h ?_
    simp [List.nodup_append, hn, hnm]

/-- The only error `dfs` can raise is the manifest-not-found error of
`parse_manifest`, carrying the missing manifest's path. -/
theorem dfsRun_error_manifest (fs : List (String × List String)) (stack : List String)
    (st : DfsState) :
    ∀ e, dfsRun fs stack st = Except.error e →
      ∃ name, e = "Manifest not found: manifests/" ++ name ++ ".lll" := by
  induction stack, st using dfsRun.induct fs with
  | case1 st =>
    intro e h
    rw [dfsRun_nil] at h
    cases h
  | case2 name rest st hmem ih =>
    intro e h
    rw [dfsRun_visited fs name rest st hmem] at h
    exact ih e h
  | case3 name rest st hnm e' hp =>
    intro e h
    rw [dfsRun_err fs name rest st e' hnm hp] at h
    cases h
    unfold parseManifest at hp
    cases hl : lookupManifest fs name with
    | none => rw [hl] at hp; cases hp; exact ⟨name, rfl⟩
    | some lines => rw [hl] at hp; cases hp
  | case4 name rest st hnm pr hp ih =>
    intro e h
    rw [dfsRun_fresh fs name rest st pr hnm hp] at h
    exact ih e h


theorem demo_dfs :
    dfsRun demoFs ["root"] { visited := [], modules := [] } =
      Except.ok { visited := ["root", "child"], modules := ["m1", "m2", "m3"] } := by
  rw [dfsRun_fresh demoFs "root" [] ⟨[], []⟩ (["m1", "m2"], ["child"]) (by simp) rfl]
  show dfsRun demoFs ["child"] ⟨["root"], ["m1", "m2"]⟩ = _
  rw [dfsRun_fresh demoFs "child" [] ⟨["root"], ["m1", "m2"]⟩ (["m2", "m3"], []) (by simp) rfl]
  show dfsRun demoFs [] ⟨["root", "child"], ["m1", "m2", "m3"]⟩ = _
  exact dfsRun_nil demoFs _

theorem demoFs_eval :
    collectDependencies demoFs "root" =
      Except.ok (["root", "child"], ["m1", "m2", "m3"]) := by
  unfold collectDependencies
  rw [demo_dfs]

theorem diamond_dfs :
    dfsRun diamondFs ["A"] { visited := [], modules := [] } =
      Except.ok { visited := ["A", "B", "D", "C"], modules := ["dm"] } := by
  rw [dfsRun_fresh diamondFs "A" [] ⟨[], []⟩ ([], ["B", "C"]) (by simp) rfl]
  show dfsRun diamondFs ["B", "C"] ⟨["A"], []⟩ = _
  rw [dfsRun_fresh diamondFs "B" ["C"] ⟨["A"], []⟩ ([], ["D"]) (by simp) rfl]
  show dfsRun diamondFs ["D", "C"] ⟨["A", "B"], []⟩ = _
  rw [dfsRun_fresh diamondFs "D" ["C"] ⟨["A", "B"], []⟩ (["dm"], []) (by simp) rfl]
  show dfsRun diamondFs ["C"] ⟨["A", "B", "D"], ["dm"]⟩ = _
  rw [dfsRun_fresh diamondFs "C" [] ⟨["A", "B", "D"], ["dm"]⟩ ([], ["D"]) (by simp) rfl]
  show dfsRun diamondFs ["D"] ⟨["A", "B", "D", "C"], ["dm"]⟩ = _
  rw [dfsRun_visited diamondFs "D" [] ⟨["A", "B", "D", "C"], ["dm"]⟩ (by simp)]
  exact dfsRun_nil diamondFs _

theorem diamondFs_eval :
    collectDependencies diamondFs "A" = Except.ok (["A", "B", "D", "C"], ["dm"]) := by
  unfold collectDependencies
  rw [diamond_dfs]

/-- C1: resolving the spec's `root`/`child` example yields the manifest
set `{root, child}` and the module set `{m1, m2, m3}`: the closure holds
every reachable manifest including the root, and the module set is the
duplicate-collapsed union over reachable manifests. -/
theorem collect_dependencies_demo_closure :
    ∃ vis mods, collectDependencies demoFs "root" = Except.ok (vis, mods) ∧
      vis.toFinset = ({"root", "child"} : Finset String) ∧
      mods.toFinset = ({"m1", "m2", "m3"} : Finset String) := by
  refine ⟨["root", "child"], ["m1", "m2", "m3"], demoFs_eval, ?_, ?_⟩ <;> decide

/-- C2: on any manifest tree in which `A` requires exactly `[B]` and `B`
requires exactly `[A]` (a `requires` cycle), `collect_dependencies A`
returns normally — no infinite recursion — with visited set exactly
`{A, B}`. -/
theorem collect_dependencies_cycle_terminates
    (fs : List (String × List String)) (A B : String)
    (prA prB : List String × List String) (hAB : A ≠ B)
    (hA : parseManifest fs A = Except.ok prA) (hreqA : prA.2 = [B])
    (hB : parseManifest fs B = Except.ok prB) (hreqB : prB.2 = [A]) :
    ∃ mods, collectDependencies fs A = Except.ok ([A, B], mods) ∧
      ([A, B] : List String).toFinset = ({A, B} : Finset String) := by
  refine ⟨addAll (addAll [] prA.1) prB.1, ?_, by simp⟩
  have hrun : dfsRun fs [A] { visited := [], modules := [] } =
      Except.ok { visited := [A, B], modules := addAll (addAll [] prA.1) prB.1 } := by
    rw [dfsRun_fresh fs A [] ⟨[], []⟩ prA (by simp) hA, hreqA]
    show dfsRun fs [B] ⟨[A], addAll [] prA.1⟩ = _
    rw [dfsRun_fresh fs B [] ⟨[A], addAll [] prA.1⟩ prB (by simp [Ne.symm hAB]) hB, hreqB]
    show dfsRun fs [A] ⟨[A, B], addAll (addAll [] prA.1) prB.1⟩ = _
    rw [dfsRun_visited fs A [] _ (by simp)]
    rw [dfsRun_nil]
  unfold collectDependencies
  rw [hrun]

theorem collect_dependencies_cycle_terminates_witness :
    ∃ mods, collectDependencies cycleFs "a" = Except.ok (["a", "b"], mods) ∧
      (["a", "b"] : List String).toFinset = ({"a", "b"} : Finset String) :=
  collect_dependencies_cycle_terminates cycleFs "a" "b" ([], ["b"]) ([], ["a"])
    (by decide) rfl rfl rfl rfl

/-- C3: whatever the manifest tree, a successful resolution visits (and
hence parses) each manifest name at most once — the visited-set guard
forbids a second visit — so each visited name has multiplicity exactly
one in the returned closure. -/
theorem collect_dependencies_visits_once
    (fs : List (String × List String)) (root : String)
    (vis mods : List String)
    (h : collectDependencies fs root = Except.ok (vis, mods)) :
    vis.Nodup ∧ ∀ a ∈ vis, vis.count a = 1 := by
  unfold collectDependencies at h
  cases hd : dfsRun fs [root] { visited := [], modules := [] } with
  | error e => rw [hd] at h; cases h
  | ok st =>
    rw [hd] at h
    cases h
    have hn : st.visited.Nodup :=
      dfsRun_ok_nodup fs [root] { visited := [], modules := [] } st hd (by simp)
    exact ⟨hn, fun a ha => List.count_eq_one_of_mem hn ha⟩

theorem collect_dependencies_visits_once_witness :
    (["A", "B", "D", "C"] : List String).Nodup ∧
      ∀ a ∈ (["A", "B", "D", "C"] : List String),
        (["A", "B", "D", "C"] : List String).count a = 1 :=
  collect_dependencies_visits_once diamondFs "A" ["A", "B", "D", "C"] ["dm"]
    diamondFs_eval


/-- C6: with a recognized section open, an entry line — one whose stripped
text is `- ` followed by `rest` — contributes the value obtained from
`rest` by cutting at the first `#` and stripping surrounding whitespace;
an empty value is discarded, any other value is appended to the open
section's list. -/
theorem parse_manifest_entry_line (st : ParseState) (raw : String) (rest : List Char)
    (sec : SectionKey) (hstate : st.state = some sec)
    (hline : pyStripList raw.data = '-' :: ' ' :: rest) :
    processLine st raw =
      (if pyStripList (rest.takeWhile (fun c => c != '#')) = [] then st
       else appendEntry st sec ⟨pyStripList (rest.takeWhile (fun c => c != '#'))⟩) := by
  cases sec <;>
    simp [processLine, hline, hstate, appendEntry, leadDashSpace]

theorem parse_manifest_entry_line_witness :
    processLine { modules := [], requires := [], state := some SectionKey.modules }
        "- m1  # comment" =
      { modules := ["m1"], requires := [], state := some SectionKey.modules } := by
  have h := parse_manifest_entry_line
    { modules := [], requires := [], state := some SectionKey.modules }
    "- m1  # comment" "m1  # comment".data SectionKey.modules rfl (by decide)
  rw [h]
  decide

/-- C7: while no recognized section is open (`state = None`), no line of
any shape contributes an entry to either returned list; in particular a
`- ` line under an unrecognized key is dropped. -/
theorem parse_manifest_outside_section (st : ParseState) (raw : String)
    (h : st.state = none) :
    (processLine st raw).modules = st.modules ∧
      (processLine st raw).requires = st.requires := by
  unfold processLine
  simp only [h, Option.isSome_none, Bool.false_eq_true, false_and, if_false]
  split
  · exact ⟨rfl, rfl⟩
  · split
    · exact ⟨rfl, rfl⟩
    · split
      · split
        · exact ⟨rfl, rfl⟩
        · split
          · exact ⟨rfl, rfl⟩
          · exact ⟨rfl, rfl⟩
      · exact ⟨rfl, rfl⟩

theorem parse_manifest_outside_section_witness :
    (processLine { modules := [], requires := [], state := none } "- x").modules = [] ∧
      (processLine { modules := [], requires := [], state := none } "- x").requires = [] :=
  parse_manifest_outside_section { modules := [], requires := [], state := none } "- x" rfl

/-- C10: a header-looking line carrying an inline comment, such as
`modules:  # note`, is ignored entirely — the state (including the open
section) is unchanged — so a following `- ` entry still lands in whatever
recognized section was open before it (here: `requires`). -/
theorem parse_manifest_header_with_comment :
    (∀ st : ParseState, processLine st "modules:  # note" = st) ∧
      parseLines ["requires:", "modules:  # note", "- m1"] = ([], ["m1"]) := by
  constructor
  · intro st
    obtain ⟨ms, rs, so⟩ := st
    cases so with
    | none => rfl
    | some sec => cases sec <;> rfl
  · rfl


theorem writeModules_missing (env : BuildEnv) (b : String) (l : List String)
    (h : ∃ m ∈ l, env.moduleExists m = false) :
    ∃ m ∈ l, env.moduleExists m = false ∧
      (writeModules env b l).2 = some ("Module not found: modules/" ++ m ++ ".lll") := by
  induction l with
  | nil => simp at h
  | cons m rest ih =>
    by_cases he : env.moduleExists m
    · obtain ⟨m', hm', he'⟩ := h
      rcases List.mem_cons.mp hm' with h1 | h1
      · subst h1; rw [he] at he'; cases he'
      · obtain ⟨m2, hm2, he2, herr⟩ := ih ⟨m', h1, he'⟩
        exact ⟨m2, List.mem_cons_of_mem m hm2, he2, by simp [writeModules, he, herr]⟩
    · exact ⟨m, List.mem_cons_self m rest, by simpa using he,
        by simp [writeModules, he]⟩

theorem writeModules_err_none (env : BuildEnv) (b : String) (l : List String)
    (h : (writeModules env b l).2 = none) :
    (writeModules env b l).1 = l.map fun m =>
      ZipEvent.writeEntry ("modules/" ++ m ++ ".lll") (b ++ "/modules/" ++ m ++ ".lll") := by
  induction l with
  | nil => simp [writeModules]
  | cons m rest ih =>
    by_cases he : env.moduleExists m
    · simp only [writeModules, if_pos he] at h ⊢
      simp [ih h]
    · simp [writeModules, he] at h

theorem writeModules_all_exist (env : BuildEnv) (b : String) (l : List String)
    (h : ∀ m ∈ l, env.moduleExists m = true) :
    (writeModules env b l).2 = none := by
  induction l with
  | nil => simp [writeModules]
  | cons m rest ih =>
    have hm := h m (List.mem_cons_self m rest)
    simp only [writeModules, if_pos hm]
    exact ih fun x hx => h x (List.mem_cons_of_mem m hx)

theorem writeModules_mem (env : BuildEnv) (b : String) (l : List String)
    (ev : ZipEvent) (h : ev ∈ (writeModules env b l).1) :
    ∃ m, ev = ZipEvent.writeEntry ("modules/" ++ m ++ ".lll")
      (b ++ "/modules/" ++ m ++ ".lll") := by
  induction l with
  | nil => simp [writeModules] at h
  | cons m rest ih =>
    by_cases he : env.moduleExists m
    · simp only [writeModules, if_pos he, List.mem_cons] at h
      rcases h with h1 | h1
      · exact ⟨m, h1⟩
      · exact ih h1
    · simp [writeModules, he] at h

theorem buildZip_collect_err (env : BuildEnv) (root output : String)
    (ie : Bool) (bp bn : Option String) (e : String)
    (hc : collectDependencies env.manifests root = Except.error e) :
    buildZip env root output ie bp bn = ([], Except.error e) := by
  simp [buildZip, hc]

theorem buildZip_moderr (env : BuildEnv) (root output : String)
    (ie : Bool) (bp bn : Option String) (vis mods : List String) (e : String)
    (hc : collectDependencies env.manifests root = Except.ok (vis, mods))
    (hwm : (writeModules env root (sortStrings mods)).2 = some e) :
    buildZip env root output ie bp bn =
      ([ZipEvent.mkdirOutput, ZipEvent.openArchive] ++ manifestWrites root vis ++
          (writeModules env root (sortStrings mods)).1,
        Except.error e) := by
  simp [buildZip, hc, hwm]

theorem buildZip_ok_trace (env : BuildEnv) (root output : String)
    (ie : Bool) (bp bn : Option String) (vis mods : List String)
    (hc : collectDependencies env.manifests root = Except.ok (vis, mods))
    (hwm : (writeModules env root (sortStrings mods)).2 = none) :
    ∃ rest,
      (buildZip env root output ie bp bn).1 =
        [ZipEvent.mkdirOutput, ZipEvent.openArchive] ++ manifestWrites root vis ++
          (writeModules env root (sortStrings mods)).1 ++
          (if ie then extraWrites env root else []) ++ rest ∧
      (rest = [] ∨ ∃ b nm, rest = [ZipEvent.writeEntry b (root ++ "/bin/" ++ nm)]) := by
  cases bp with
  | none =>
    refine ⟨[], ?_, Or.inl rfl⟩
    simp [buildZip, hc, hwm]
  | some b =>
    by_cases hb : env.binaryExists b
    · refine ⟨[ZipEvent.writeEntry b (root ++ "/bin/" ++ (bn.getD (fileBaseName b)))],
        ?_, Or.inr ⟨b, bn.getD (fileBaseName b), rfl⟩⟩
      simp [buildZip, hc, hwm, hb]
    · refine ⟨[], ?_, Or.inl rfl⟩
      simp [buildZip, hc, hwm, hb]

theorem buildZip_snd_includeExtra (env : BuildEnv) (root output : String)
    (bp bn : Option String) :
    (buildZip env root output true bp bn).2 = (buildZip env root output false bp bn).2 := by
  cases hc : collectDependencies env.manifests root with
  | error e => simp [buildZip, hc]
  | ok pr =>
    cases hwm : (writeModules env root (sortStrings pr.2)).2 with
    | some e => simp [buildZip, hc, hwm]
    | none =>
      cases bp with
      | none => simp [buildZip, hc, hwm]
      | some b =>
        by_cases hb : env.binaryExists b <;> simp [buildZip, hc, hwm, hb]

theorem sortStrings_perm (l : List String) : (sortStrings l).Perm l :=
  List.perm_insertionSort _ l

theorem sortStrings_sorted (l : List String) :
    (sortStrings l).Sorted (fun a b : String => a ≤ b) :=
  List.sorted_insertionSort _ l

theorem buildZip_none_ok (env : BuildEnv) (root output : String) (ie : Bool)
    (bn : Option String) (vis mods : List String)
    (hc : collectDependencies env.manifests root = Except.ok (vis, mods))
    (hwm : (writeModules env root (sortStrings mods)).2 = none) :
    (buildZip env root output ie none bn).2 = Except.ok output := by
  simp [buildZip, hc, hwm]


/-- Environment with an empty manifests directory. -/
def envE : BuildEnv :=
  { manifests := [], moduleExists := fun _ => false,
    extraExists := fun _ => false, binaryExists := fun _ => false }

theorem emptyFs_eval :
    collectDependencies ([] : List (String × List String)) "r" =
      Except.error "Manifest not found: manifests/r.lll" := by
  unfold collectDependencies
  rw [dfsRun_err [] "r" [] ⟨[], []⟩ "Manifest not found: manifests/r.lll" (by simp) rfl]

/-- C4: whenever the resolved module set has a member with no source file
under the modules directory, `build_zip` raises the not-found error naming
that module's expected path (the first missing one in sorted order) and
does not return a success path. -/
theorem build_zip_missing_module_error (env : BuildEnv) (root output : String)
    (ie : Bool) (bp bn : Option String) (vis mods : List String)
    (hc : collectDependencies env.manifests root = Except.ok (vis, mods))
    (hmiss : ∃ m ∈ mods, env.moduleExists m = false) :
    ∃ m ∈ mods, env.moduleExists m = false ∧
      (buildZip env root output ie bp bn).2 =
        Except.error ("Module not found: modules/" ++ m ++ ".lll") := by
  obtain ⟨m0, hm0, he0⟩ := hmiss
  obtain ⟨m1, hm1, he1, herr⟩ := writeModules_missing env root (sortStrings mods)
    ⟨m0, (sortStrings_perm mods).mem_iff.mpr hm0, he0⟩
  refine ⟨m1, (sortStrings_perm mods).mem_iff.mp hm1, he1, ?_⟩
  rw [buildZip_moderr env root output ie bp bn vis mods _ hc herr]

theorem build_zip_missing_module_error_witness :
    ∃ m ∈ (["m1", "m2", "m3"] : List String), envM.moduleExists m = false ∧
      (buildZip envM "root" "out.zip" true none none).2 =
        Except.error ("Module not found: modules/" ++ m ++ ".lll") :=
  build_zip_missing_module_error envM "root" "out.zip" true none none
    ["root", "child"] ["m1", "m2", "m3"] demoFs_eval ⟨"m1", by simp, rfl⟩

/-- C5: in any archive `build_zip` builds successfully, the resolved
manifests are written (right after the archive is opened) under
`<bundle>/manifests/` and then the resolved modules under
`<bundle>/modules/`, each group in lexicographically sorted order of the
resolved names. -/
theorem build_zip_sorted_groups (env : BuildEnv) (root output : String)
    (ie : Bool) (bp bn : Option String) (vis mods : List String) (out' : String)
    (hc : collectDependencies env.manifests root = Except.ok (vis, mods))
    (hok : (buildZip env root output ie bp bn).2 = Except.ok out') :
    (∃ rest, (buildZip env root output ie bp bn).1 =
        [ZipEvent.mkdirOutput, ZipEvent.openArchive] ++
          ((sortStrings vis).map fun m => ZipEvent.writeEntry
            ("manifests/" ++ m ++ ".lll") (root ++ "/manifests/" ++ m ++ ".lll")) ++
          ((sortStrings mods).map fun m => ZipEvent.writeEntry
            ("modules/" ++ m ++ ".lll") (root ++ "/modules/" ++ m ++ ".lll")) ++
          rest) ∧
      (sortStrings vis).Sorted (fun a b : String => a ≤ b) ∧
      (sortStrings mods).Sorted (fun a b : String => a ≤ b) ∧
      (sortStrings vis).Perm vis ∧ (sortStrings mods).Perm mods := by
  cases hwm : (writeModules env root (sortStrings mods)).2 with
  | some e =>
    rw [buildZip_moderr env root output ie bp bn vis mods e hc hwm] at hok
    cases hok
  | none =>
    obtain ⟨rest, htr, _⟩ := buildZip_ok_trace env root output ie bp bn vis mods hc hwm
    refine ⟨⟨(if ie then extraWrites env root else []) ++ rest, ?_⟩,
      sortStrings_sorted vis, sortStrings_sorted mods,
      sortStrings_perm vis, sortStrings_perm mods⟩
    rw [htr, writeModules_err_none env root (sortStrings mods) hwm]
    simp [manifestWrites]

theorem build_zip_sorted_groups_witness :
    (∃ rest, (buildZip envW "root" "out.zip" true none none).1 =
        [ZipEvent.mkdirOutput, ZipEvent.openArchive] ++
          ((sortStrings ["root", "child"]).map fun m => ZipEvent.writeEntry
            ("manifests/" ++ m ++ ".lll") ("root" ++ "/manifests/" ++ m ++ ".lll")) ++
          ((sortStrings ["m1", "m2", "m3"]).map fun m => ZipEvent.writeEntry
            ("modules/" ++ m ++ ".lll") ("root" ++ "/modules/" ++ m ++ ".lll")) ++
          rest) ∧
      (sortStrings ["root", "child"]).Sorted (fun a b : String => a ≤ b) ∧
      (sortStrings ["m1", "m2", "m3"]).Sorted (fun a b : String => a ≤ b) ∧
      (sortStrings ["root", "child"]).Perm ["root", "child"] ∧
      (sortStrings ["m1", "m2", "m3"]).Perm ["m1", "m2", "m3"] :=
  build_zip_sorted_groups envW "root" "out.zip" true none none
    ["root", "child"] ["m1", "m2", "m3"] "out.zip" demoFs_eval
    (buildZip_none_ok envW "root" "out.zip" true none ["root", "child"]
      ["m1", "m2", "m3"] demoFs_eval
      (writeModules_all_exist envW "root" (sortStrings ["m1", "m2", "m3"])
        fun _ _ => rfl))

/-- C9: when dependency resolution fails (some manifest in the closure has
no source file), `build_zip` propagates the manifest-not-found error with
an empty event trace: the archive is never opened or created, so no
partial archive can exist — in contrast with a missing module, whose
failure happens after the `openArchive` event. -/
theorem build_zip_missing_manifest_early (env : BuildEnv) (root output : String)
    (ie : Bool) (bp bn : Option String) (e : String)
    (hc : collectDependencies env.manifests root = Except.error e) :
    buildZip env root output ie bp bn = ([], Except.error e) ∧
      ZipEvent.openArchive ∉ (buildZip env root output ie bp bn).1 ∧
      (∃ name, e = "Manifest not found: manifests/" ++ name ++ ".lll") ∧
      ZipEvent.openArchive ∈ (buildZip envM "root" "out.zip" true none none).1 := by
  have h1 := buildZip_collect_err env root output ie bp bn e hc
  refine ⟨h1, by rw [h1]; simp, ?_, ?_⟩
  · unfold collectDependencies at hc
    cases hd : dfsRun env.manifests [root] { visited := [], modules := [] } with
    | error e' =>
      rw [hd] at hc
      cases hc
      exact dfsRun_error_manifest env.manifests [root] _ _ hd
    | ok st => rw [hd] at hc; cases hc
  · obtain ⟨m1, _, _, herr⟩ := writeModules_missing envM "root"
      (sortStrings ["m1", "m2", "m3"])
      ⟨"m1", (sortStrings_perm _).mem_iff.mpr (by simp), rfl⟩
    rw [buildZip_moderr envM "root" "out.zip" true none none
      ["root", "child"] ["m1", "m2", "m3"] _ demoFs_eval herr]
    simp

theorem build_zip_missing_manifest_early_witness :
    buildZip envE "r" "o" true none none =
        ([], Except.error "Manifest not found: manifests/r.lll") ∧
      ZipEvent.openArchive ∉ (buildZip envE "r" "o" true none none).1 ∧
      (∃ name, "Manifest not found: manifests/r.lll" =
        "Manifest not found: manifests/" ++ name ++ ".lll") ∧
      ZipEvent.openArchive ∈ (buildZip envM "root" "out.zip" true none none).1 :=
  build_zip_missing_manifest_early envE "r" "o" true none none
    "Manifest not found: manifests/r.lll" emptyFs_eval

theorem data_append (s t : String) : (s ++ t).data = s.data ++ t.data := rfl

theorem ne_slash_head (a x y : List Char) (h : x.head? ≠ y.head?) :
    a ++ ('/' :: x) ≠ a ++ ('/' :: y) := by
  intro e
  have e2 := List.append_cancel_left e
  cases e2
  exact h rfl

theorem arcData_extra (root p : String) :
    (root ++ "/" ++ p).data = root.data ++ ('/' :: p.data) := by
  simp only [data_append, List.append_assoc]
  rfl

theorem arcData_manifest (root m : String) :
    (root ++ "/manifests/" ++ m ++ ".lll").data =
      root.data ++ ('/' :: ("manifests/" ++ m ++ ".lll").data) := by
  simp only [data_append, List.append_assoc]
  rfl

theorem arcData_module (root m : String) :
    (root ++ "/modules/" ++ m ++ ".lll").data =
      root.data ++ ('/' :: ("modules/" ++ m ++ ".lll").data) := by
  simp only [data_append, List.append_assoc]
  rfl

theorem arcData_bin (root nm : String) :
    (root ++ "/bin/" ++ nm).data = root.data ++ ('/' :: ("bin/" ++ nm).data) := by
  simp only [data_append, List.append_assoc]
  rfl

/-- No auxiliary relative path starts with the character of the
`manifests/` / `modules/` group (both `m`) or of `bin/` (`b`). -/
theorem extra_head : ∀ p ∈ extraPathsList,
    p.data.head? ≠ some 'm' ∧ p.data.head? ≠ some 'b' := by decide

theorem extra_ne_manifest (root p m : String) (hp : p ∈ extraPathsList) :
    ¬ root ++ "/" ++ p = root ++ "/manifests/" ++ m ++ ".lll" := by
  intro h
  have hd := congrArg String.data h
  rw [arcData_extra, arcData_manifest] at hd
  refine ne_slash_head root.data p.data ("manifests/" ++ m ++ ".lll").data ?_ hd
  rw [show ("manifests/" ++ m ++ ".lll").data.head? = some 'm' from rfl]
  exact (extra_head p hp).1

theorem extra_ne_module (root p m : String) (hp : p ∈ extraPathsList) :
    ¬ root ++ "/" ++ p = root ++ "/modules/" ++ m ++ ".lll" := by
  intro h
  have hd := congrArg String.data h
  rw [arcData_extra, arcData_module] at hd
  refine ne_slash_head root.data p.data ("modules/" ++ m ++ ".lll").data ?_ hd
  rw [show ("modules/" ++ m ++ ".lll").data.head? = some 'm' from rfl]
  exact (extra_head p hp).1

theorem extra_ne_bin (root p nm : String) (hp : p ∈ extraPathsList) :
    ¬ root ++ "/" ++ p = root ++ "/bin/" ++ nm := by
  intro h
  have hd := congrArg String.data h
  rw [arcData_extra, arcData_bin] at hd
  refine ne_slash_head root.data p.data ("bin/" ++ nm).data ?_ hd
  rw [show ("bin/" ++ nm).data.head? = some 'b' from rfl]
  exact (extra_head p hp).2

/-- An auxiliary-path arcname never occurs among the header events, the
manifest writes or the module writes. -/
theorem extra_not_in_core (env : BuildEnv) (root p src : String) (vis : List String)
    (l : List String) (hp : p ∈ extraPathsList) :
    ZipEvent.writeEntry src (root ++ "/" ++ p) ∉
      ([ZipEvent.mkdirOutput, ZipEvent.openArchive] ++ manifestWrites root vis ++
        (writeModules env root l).1) := by
  intro h
  rcases List.mem_append.mp h with h1 | h2
  · rcases List.mem_append.mp h1 with h0 | hman
    · simp at h0
    · rcases List.mem_map.mp hman with ⟨m, _, heq⟩
      injection heq with hsrc harc
      exact extra_ne_manifest root p m hp harc.symm
  · rcases writeModules_mem env root l _ h2 with ⟨m, heq⟩
    injection heq with hsrc harc
    exact extra_ne_module root p m hp harc

/-- C8: auxiliary files never reach the archive when `include_extra` is
off, even when present on disk (no event writes an `<bundle>/<aux-path>`
arcname); with it on, the existing auxiliary paths are written — sorted,
with missing ones silently skipped — and the returned result (success or
error) is exactly that of the run without auxiliary files. -/
theorem build_zip_extra_paths (env : BuildEnv) (root output : String)
    (bp bn : Option String) (p src : String) (hp : p ∈ extraPathsList) :
    (ZipEvent.writeEntry src (root ++ "/" ++ p) ∉
        (buildZip env root output false bp bn).1) ∧
      ((buildZip env root output true bp bn).2 =
        (buildZip env root output false bp bn).2) ∧
      (∀ vis mods, collectDependencies env.manifests root = Except.ok (vis, mods) →
        (writeModules env root (sortStrings mods)).2 = none →
        ∃ rest, (buildZip env root output true bp bn).1 =
          [ZipEvent.mkdirOutput, ZipEvent.openArchive] ++ manifestWrites root vis ++
            (writeModules env root (sortStrings mods)).1 ++ extraWrites env root ++ rest) ∧
      ((sortStrings extraPathsList).filter env.extraExists).Sorted
        (fun a b : String => a ≤ b) := by
  refine ⟨?_, buildZip_snd_includeExtra env root output bp bn, ?_, ?_⟩
  · intro h
    cases hc : collectDependencies env.manifests root with
    | error e =>
      rw [buildZip_collect_err env root output false bp bn e hc] at h
      simp at h
    | ok pr =>
      obtain ⟨vis, mods⟩ := pr
      cases hwm : (writeModules env root (sortStrings mods)).2 with
      | some e =>
        rw [buildZip_moderr env root output false bp bn vis mods e hc hwm] at h
        exact extra_not_in_core env root p src vis (sortStrings mods) hp h
      | none =>
        obtain ⟨rest, htr, hrest⟩ :=
          buildZip_ok_trace env root output false bp bn vis mods hc hwm
        rw [htr] at h
        rcases List.mem_append.mp h with h1 | h2
        · rcases List.mem_append.mp h1 with h3 | h4
          · exact extra_not_in_core env root p src vis (sortStrings mods) hp h3
          · simp at h4
        · rcases hrest with rfl | ⟨b, nm, rfl⟩
          · simp at h2
          · simp only [List.mem_singleton] at h2
            injection h2 with hsrc harc
            exact extra_ne_bin root p nm hp harc
  · intro vis mods hc hwm
    obtain ⟨rest, htr, _⟩ := buildZip_ok_trace env root output true bp bn vis mods hc hwm
    exact ⟨rest, by simpa using htr⟩
  · exact List.Pairwise.sublist (List.filter_sublist _) (sortStrings_sorted extraPathsList)

theorem build_zip_extra_paths_witness :
    (ZipEvent.writeEntry "README.md" ("root" ++ "/" ++ "README.md") ∉
        (buildZip envW "root" "out.zip" false none none).1) ∧
      ((buildZip envW "root" "out.zip" true none none).2 =
        (buildZip envW "root" "out.zip" false none none).2) ∧
      (∀ vis mods, collectDependencies envW.manifests "root" = Except.ok (vis, mods) →
        (writeModules envW "root" (sortStrings mods)).2 = none →
        ∃ rest, (buildZip envW "root" "out.zip" true none none).1 =
          [ZipEvent.mkdirOutput, ZipEvent.openArchive] ++ manifestWrites "root" vis ++
            (writeModules envW "root" (sortStrings mods)).1 ++
            extraWrites envW "root" ++ rest) ∧
      ((sortStrings extraPathsList).filter envW.extraExists).Sorted
        (fun a b : String => a ≤ b) :=
  build_zip_extra_paths envW "root" "out.zip" none none "README.md" "README.md"
    (by simp [extraPathsList])

end BuildBundle
